import Mathlib

/-!
Verification development for `packetloggeapi.py`, a client-side bridge to a
local packet sniffing and injection server.  The Python code is shallowly
embedded: strings are `List Char` (the code works on decoded text), the
transport is a finite script of read events, and the lazy iterator protocol
becomes a fuelled step function whose fuel exhaustion witnesses
non-termination of the Python `while` loop.
-/

set_option autoImplicit false

namespace PacketLoggerApi

/-- The exact set of characters for which CPython's `str.isspace()` is true —
the characters removed by `str.strip()` and recognized by `str.split()` with
no separator argument: U+0009-U+000D, U+001C-U+001F, U+0020, U+0085 (NEL),
U+00A0 (NBSP), U+1680, U+2000-U+200A, U+2028, U+2029, U+202F, U+205F and
U+3000. -/
def isPySpace (c : Char) : Bool :=
  (0x09 ≤ c.toNat && c.toNat ≤ 0x0D) || (0x1C ≤ c.toNat && c.toNat ≤ 0x1F) ||
  c.toNat == 0x20 || c.toNat == 0x85 || c.toNat == 0xA0 || c.toNat == 0x1680 ||
  (0x2000 ≤ c.toNat && c.toNat ≤ 0x200A) || c.toNat == 0x2028 || c.toNat == 0x2029 ||
  c.toNat == 0x202F || c.toNat == 0x205F || c.toNat == 0x3000

/-- Python `str.lstrip()` on a list of characters. -/
def pyLStrip (s : List Char) : List Char := s.dropWhile isPySpace

/-- Python `str.rstrip()` on a list of characters. -/
def pyRStrip (s : List Char) : List Char := (s.reverse.dropWhile isPySpace).reverse

/-- Python `str.strip()` on a list of characters. -/
def pyStrip (s : List Char) : List Char := pyRStrip (pyLStrip s)

/-- The whitespace characters CPython's `int()` strips around a numeric
literal.  Empirically this is the `str.isspace()` set EXCEPT U+001C-U+001F:
`int` of a string framed by any of those four raises `ValueError` even
though `str.strip()` removes them. -/
def isIntSpace (c : Char) : Bool :=
  isPySpace c && !(0x1C ≤ c.toNat && c.toNat ≤ 0x1F)

/-- The stripping `int()` applies to its string argument before parsing. -/
def pyIntStrip (s : List Char) : List Char :=
  ((s.dropWhile isIntSpace).reverse.dropWhile isIntSpace).reverse

/-- Split at the first occurrence of the character `d`: `some (before, after)`
when `d` occurs, `none` otherwise.  This is the common core of Python's
`str.split(sep, maxsplit)` for a one-character separator. -/
def splitFirst (d : Char) : List Char → Option (List Char × List Char)
  | [] => none
  | c :: rest =>
    if c = d then some ([], rest)
    else
      match splitFirst d rest with
      | none => none
      | some (l, r) => some (c :: l, r)

/-- Python `s.split(' ', 2)`: split on the single space character, at most two
splits, runs of spaces NOT collapsed (an empty part results between two
adjacent spaces).  Returns one, two or three parts. -/
def pySplitSp2 (s : List Char) : List (List Char) :=
  match splitFirst ' ' s with
  | none => [s]
  | some (p0, r0) =>
    match splitFirst ' ' r0 with
    | none => [p0, r0]
    | some (p1, r1) => [p0, p1, r1]

/-- Continue a digit run after at least one digit has been consumed,
allowing PEP 515 single underscores between digits (`1_0` is 10; `1__0`,
`1_` are rejected). -/
def digitsValAux : Nat → List Char → Option Nat
  | acc, [] => some acc
  | _, ['_'] => none
  | acc, '_' :: c :: rest =>
    if c.isDigit then digitsValAux (acc * 10 + (c.toNat - 48)) rest else none
  | acc, c :: rest =>
    if c.isDigit then digitsValAux (acc * 10 + (c.toNat - 48)) rest else none

/-- Value of a nonempty digit run with optional single underscores between
digits (no leading or trailing underscore); `none` otherwise. -/
def digitsVal : List Char → Option Nat
  | [] => none
  | c :: rest => if c.isDigit then digitsValAux (c.toNat - 48) rest else none

/-- Python's `int()` builtin applied to a string: surrounding `int`
whitespace is allowed, then an optional single `+` or `-` sign, then a
nonempty run of decimal digits with optional PEP 515 underscores between
digits; anything else raises `ValueError`, modelled as `none`.  Digits are
the ASCII digits: CPython additionally accepts non-ASCII Unicode decimal
digits (e.g. Arabic-Indic ones), but none of those is windows-1252
decodable, so on the text this program can ever read — the output of
`recv(...).decode(ENCODING)` — this model agrees with `int()` exactly;
theorems that quantify over arbitrary lines therefore carry a
windows-1252-representability hypothesis. -/
def pyInt (s : List Char) : Option Int :=
  match pyIntStrip s with
  | '+' :: rest => (digitsVal rest).map Int.ofNat
  | '-' :: rest => (digitsVal rest).map (fun n => -(n : Int))
  | rest => (digitsVal rest).map Int.ofNat

/-- The `PacketType` enum of the source: `SEND = 1` (outbound), `RECEIVE = 0`
(inbound). -/
inductive PacketType
  | SEND
  | RECEIVE
deriving DecidableEq

/-- The enum constructor `PacketType(n)`: `some` for the member values `1`
and `0`, `none` models the `ValueError` raised for any other value. -/
def PacketType.ofInt (n : Int) : Option PacketType :=
  if n = 1 then some PacketType.SEND
  else if n = 0 then some PacketType.RECEIVE
  else none

/-- The `Packet` dataclass: type, header, content. -/
structure Packet where
  type : PacketType
  header : List Char
  content : List Char
deriving DecidableEq

/-- Outcome of `Packet.from_string`: `None` in Python is `absent`; a
propagated `ValueError` is `error`; a constructed dataclass is `ok`. -/
inductive ParseResult
  | absent
  | error
  | ok (p : Packet)
deriving DecidableEq

/-- `Packet.from_string`: `parts = packet.strip().split(' ', 2)`; fewer than
three parts gives `None`; otherwise `PacketType(int(parts[0]))` (either
`int` or the enum constructor may raise) with `parts[1]` and `parts[2]`
verbatim. -/
def Packet.from_string (packet : List Char) : ParseResult :=
  match pySplitSp2 (pyStrip packet) with
  | [p0, p1, p2] =>
    match pyInt p0 with
    | none => ParseResult.error
    | some n =>
      match PacketType.ofInt n with
      | none => ParseResult.error
      | some t => ParseResult.ok ⟨t, p1, p2⟩
  | _ => ParseResult.absent

/-- `PacketLogger.DELIM`, the frame delimiter `'\r'`. -/
def DELIM : Char := '\r'

/-- One transport read event: `data c` is a successful `recv` returning the
decoded chunk `c` (the empty chunk models end-of-stream), `err` is a `recv`
raising `OSError`. -/
inductive ReadEv
  | data (chunk : List Char)
  | err
deriving DecidableEq

/-- A transport script: the finite list of pending read events.  Reading past
the end models a closed socket, whose `recv` keeps returning zero bytes. -/
abbrev Script := List ReadEv

/-- One call to `PacketLogger.read` (`recv(...).decode(...)`): returns the
decoded chunk, or `none` when the read raises `OSError`. -/
def readRaw : Script → Option (List Char) × Script
  | [] => (some [], [])
  | ReadEv.data c :: rest => (some c, rest)
  | ReadEv.err :: rest => (none, rest)

/-- State of a `PacketIterator` together with the transport it reads from:
`buffer` is `self.__buffer`, `script` the pending transport events. -/
structure IterState where
  buffer : List Char
  script : Script
deriving DecidableEq

/-- Step 1 of `__next__`: `buffer = self.__buffer or self.__read_data()` —
the stored buffer if nonempty (truthy), otherwise one guarded read. -/
def step1 (st : IterState) : Option (List Char) × Script :=
  if st.buffer = [] then readRaw st.script else (some st.buffer, st.script)

/-- Result of the `while DELIM not in buffer: buffer += read()` loop:
`ok` with final working chunk and script, `oserror` when the unguarded
`read()` raises, `hang` when the fuel runs out (the loop does not
terminate). -/
inductive LoopRes
  | ok (chunk : List Char) (s : Script)
  | oserror (s : Script)
  | hang
deriving DecidableEq

/-- The fuelled `while` loop of `__next__` (lines 49-50): the raw `read()`
here is NOT wrapped in the `OSError` handler. -/
def loopRead : Nat → List Char → Script → LoopRes
  | 0, b, s => if DELIM ∈ b then LoopRes.ok b s else LoopRes.hang
  | fuel + 1, b, s =>
    if DELIM ∈ b then LoopRes.ok b s
    else
      match readRaw s with
      | (none, s') => LoopRes.oserror s'
      | (some c, s') => loopRead fuel (b ++ c) s'

/-- Outcome of one `__next__` call: a yielded line, `StopIteration`,
a propagated `OSError`, or non-termination (`hang`, fuel exhausted). -/
inductive NextRes
  | yield (line : List Char)
  | stop
  | oserror
  | hang
deriving DecidableEq

/-- `line, buffer = buffer.split(DELIM, 1); self.__buffer = buffer; return
line` — the final split of `__next__`.  The `none` arm is unreachable when
the chunk contains the delimiter; `fallback` is the iterator state at that
point. -/
def finishSplit (b : List Char) (s : Script) (fallback : IterState) : NextRes × IterState :=
  match splitFirst DELIM b with
  | some (line, tail) => (NextRes.yield line, ⟨tail, s⟩)
  | none => (NextRes.hang, fallback)

/-- `PacketIterator.__next__`, faithfully including its quirks: the extra
chunk read by the `if` block is appended to `self.__buffer` (not to the
local `buffer`), the `while` loop reads without the `OSError` guard, and a
zero-byte read is the empty string, which passes the `is None` check. -/
def nextFuel (fuel : Nat) (st : IterState) : NextRes × IterState :=
  match step1 st with
  | (none, s1) => (NextRes.stop, ⟨st.buffer, s1⟩)
  | (some b, s1) =>
    if DELIM ∈ b then finishSplit b s1 ⟨st.buffer, s1⟩
    else
      match readRaw s1 with
      | (none, s2) => (NextRes.stop, ⟨st.buffer, s2⟩)
      | (some more, s2) =>
        match loopRead fuel b s2 with
        | LoopRes.ok b' s3 => finishSplit b' s3 ⟨st.buffer ++ more, s3⟩
        | LoopRes.oserror s3 => (NextRes.oserror, ⟨st.buffer ++ more, s3⟩)
        | LoopRes.hang => (NextRes.hang, ⟨st.buffer ++ more, s2⟩)

/-- The characters the windows-1252 codec can encode: exactly the image of
its decode table — code points below U+0080, U+00A0 through U+00FF, and the
27 characters of the `0x80`-`0x9F` row.  `str.encode(ENCODING)` raises
`UnicodeEncodeError` on any other character (including U+0080-U+009F,
which the code page does not map). -/
def cp1252Encodable (ch : Char) : Bool :=
  ch.toNat < 0x80 || (0xA0 ≤ ch.toNat && ch.toNat ≤ 0xFF) ||
  ([0x20AC, 0x201A, 0x0192, 0x201E, 0x2026, 0x2020, 0x2021, 0x02C6, 0x2030,
    0x0160, 0x2039, 0x0152, 0x017D, 0x2018, 0x2019, 0x201C, 0x201D, 0x2022,
    0x2013, 0x2014, 0x02DC, 0x2122, 0x0161, 0x203A, 0x0153, 0x017E,
    0x0178] : List Nat).contains ch.toNat

/-- `PacketLogger.send`: writes `('1 ' + packet + '\r').encode(ENCODING)` to
the transport; the encode raises `UnicodeEncodeError` (modelled as `none`)
when the payload contains a character windows-1252 cannot encode. -/
def send (packet : List Char) : Option (List Char) :=
  if packet.all cp1252Encodable then some ('1' :: ' ' :: (packet ++ [DELIM])) else none

/-- `PacketLogger.receive`: writes `('0 ' + packet + '\r').encode(ENCODING)`
to the transport, failing on non-encodable characters like `send`. -/
def receive (packet : List Char) : Option (List Char) :=
  if packet.all cp1252Encodable then some ('0' :: ' ' :: (packet ++ [DELIM])) else none

/-- The `windows-1252` single-byte decoding used by `PacketLogger.ENCODING`
(`recv(...).decode('windows-1252')`), per the published code page: bytes
below `0x80` and from `0xA0` to `0xFF` map to the same code point; the
`0x80`-`0x9F` row maps through the table below, in which the five bytes
`0x81`, `0x8D`, `0x8F`, `0x90` and `0x9D` are unmapped — a strict decode of
them raises `UnicodeDecodeError`, modelled as `none`. -/
def cp1252Decode (b : Nat) : Option Char :=
  if b < 128 then some (Char.ofNat b)
  else if 160 ≤ b ∧ b ≤ 255 then some (Char.ofNat b)
  else
    match b with
    | 128 => some (Char.ofNat 0x20AC)
    | 130 => some (Char.ofNat 0x201A)
    | 131 => some (Char.ofNat 0x0192)
    | 132 => some (Char.ofNat 0x201E)
    | 133 => some (Char.ofNat 0x2026)
    | 134 => some (Char.ofNat 0x2020)
    | 135 => some (Char.ofNat 0x2021)
    | 136 => some (Char.ofNat 0x02C6)
    | 137 => some (Char.ofNat 0x2030)
    | 138 => some (Char.ofNat 0x0160)
    | 139 => some (Char.ofNat 0x2039)
    | 140 => some (Char.ofNat 0x0152)
    | 142 => some (Char.ofNat 0x017D)
    | 145 => some (Char.ofNat 0x2018)
    | 146 => some (Char.ofNat 0x2019)
    | 147 => some (Char.ofNat 0x201C)
    | 148 => some (Char.ofNat 0x201D)
    | 149 => some (Char.ofNat 0x2022)
    | 150 => some (Char.ofNat 0x2013)
    | 151 => some (Char.ofNat 0x2014)
    | 152 => some (Char.ofNat 0x02DC)
    | 153 => some (Char.ofNat 0x2122)
    | 154 => some (Char.ofNat 0x0161)
    | 155 => some (Char.ofNat 0x203A)
    | 156 => some (Char.ofNat 0x0153)
    | 158 => some (Char.ofNat 0x017E)
    | 159 => some (Char.ofNat 0x0178)
    | _ => none

/-- Strict decode of a whole received byte chunk, as done by
`PacketLogger.read`: fails (`none`) as soon as any byte is unmapped. -/
def decodeBytes : List Nat → Option (List Char)
  | [] => some []
  | b :: rest =>
    match cp1252Decode b with
    | none => none
    | some c => (decodeBytes rest).map (fun cs => c :: cs)

/-- The `PacketLogger.__instances` dict (`thread_id: PacketLogger`),
modelled as an association list from thread identity to a connection
identifier, kept duplicate-free by construction. -/
abbrev Registry := List (Nat × Nat)

/-- `__instances.get(get_ident(), None)` — `PacketLogger.get_global_instance`. -/
def getGlobal (r : Registry) (tid : Nat) : Option Nat :=
  match r.find? (fun p => p.1 == tid) with
  | some p => some p.2
  | none => none

/-- `self.__instances[get_ident()] = self` — `PacketLogger.set_global`:
unconditional insert-or-overwrite. -/
def setGlobal (r : Registry) (tid : Nat) (c : Nat) : Registry :=
  (tid, c) :: r.filter (fun p => p.1 != tid)

/-- `self.__instances.pop(get_ident())` — `PacketLogger.unset_global`:
removes the mapping, raising `KeyError` (modelled as `none`) when the
identity has no mapping. -/
def unsetGlobal (r : Registry) (tid : Nat) : Option Registry :=
  match getGlobal r tid with
  | none => none
  | some _ => some (r.filter (fun p => p.1 != tid))

/-- A registry operation performed under one thread identity. -/
inductive RegOp
  | set (c : Nat)
  | unset
deriving DecidableEq

/-- Apply one registry operation under identity `tid`.  A `KeyError` from
`pop` aborts the caller but leaves the dict unchanged, so the state effect
of a failing `unset` is the identity. -/
def applyOp (r : Registry) (tid : Nat) : RegOp → Registry
  | RegOp.set c => setGlobal r tid c
  | RegOp.unset =>
    match unsetGlobal r tid with
    | some r' => r'
    | none => r

/-- Apply a sequence of registry operations, all under identity `tid`. -/
def applyOps (r : Registry) (tid : Nat) (ops : List RegOp) : Registry :=
  ops.foldl (fun acc op => applyOp acc tid op) r

/-- Modelled from the spec: split a line on whitespace into at most 3 parts
(specification section 4.1 says "split `line` ... on whitespace into at most
3 parts"), i.e. whitespace-run tokenisation with at most two splits, the
third part being the untokenised remainder.  This is NOT what the source
does (the source splits on the single space character); it exists to compare
the specification's words with the code. -/
def wsSplit2 (s : List Char) : List (List Char) :=
  let s0 := s.dropWhile isPySpace
  if s0 = [] then []
  else
    let t0 := s0.takeWhile (fun c => !isPySpace c)
    let r0 := (s0.dropWhile (fun c => !isPySpace c)).dropWhile isPySpace
    if r0 = [] then [t0]
    else
      let t1 := r0.takeWhile (fun c => !isPySpace c)
      let r1 := (r0.dropWhile (fun c => !isPySpace c)).dropWhile isPySpace
      if r1 = [] then [t0, t1] else [t0, t1, r1]

/-- Modelled from the spec (section 4.1): the parse as the specification
words it — fewer than 3 whitespace parts is absent, an unrecognized
direction code among 3 parts is a decode error, otherwise a record of
part 1 and part 2 verbatim.  Used only to exhibit where the specification's
"split on whitespace" differs from the source's `split(' ', 2)`. -/
def specParseWs (line : List Char) : ParseResult :=
  match wsSplit2 line with
  | [p0, p1, p2] =>
    if p0 = ['0'] then ParseResult.ok ⟨PacketType.RECEIVE, p1, p2⟩
    else if p0 = ['1'] then ParseResult.ok ⟨PacketType.SEND, p1, p2⟩
    else ParseResult.error
  | _ => ParseResult.absent

/-! ### Basic lemmas about `splitFirst` -/

theorem splitFirst_cons_self (d : Char) (s : List Char) :
    splitFirst d (d :: s) = some ([], s) := by
  simp [splitFirst]

theorem splitFirst_cons_ne (d a : Char) (s : List Char) (h : a ≠ d) :
    splitFirst d (a :: s) = (splitFirst d s).map (fun p => (a :: p.1, p.2)) := by
  cases hs : splitFirst d s with
  | none => simp [splitFirst, h, hs]
  | some p => cases p with
    | mk l r => simp [splitFirst, h, hs]

theorem splitFirst_append (d : Char) (a r : List Char) (ha : d ∉ a) :
    splitFirst d (a ++ d :: r) = some (a, r) := by
  induction a with
  | nil => simp [splitFirst]
  | cons c cs ih =>
    simp only [List.mem_cons, not_or] at ha
    have hc : c ≠ d := fun e => ha.1 e.symm
    rw [List.cons_append, splitFirst_cons_ne d c _ hc, ih ha.2]
    rfl

theorem splitFirst_some (d : Char) {s l t : List Char}
    (h : splitFirst d s = some (l, t)) : d ∉ l ∧ s = l ++ d :: t := by
  induction s generalizing l with
  | nil => simp [splitFirst] at h
  | cons c cs ih =>
    by_cases hc : c = d
    · subst hc
      rw [splitFirst_cons_self] at h
      obtain ⟨rfl, rfl⟩ : ([] : List Char) = l ∧ cs = t := by
        simpa using h
      simp
    · rw [splitFirst_cons_ne d c cs hc] at h
      cases hs : splitFirst d cs with
      | none => rw [hs] at h; simp at h
      | some p =>
        cases p with
        | mk l' t' =>
          rw [hs] at h
          simp only [Option.map_some'] at h
          obtain ⟨rfl, rfl⟩ : c :: l' = l ∧ t' = t := by
            constructor
            · exact (Prod.mk.injEq _ _ _ _ ▸ (Option.some.injEq _ _ ▸ h)).1
            · exact (Prod.mk.injEq _ _ _ _ ▸ (Option.some.injEq _ _ ▸ h)).2
          obtain ⟨h1, h2⟩ := ih hs
          refine ⟨?_, by rw [h2]; rfl⟩
          simp only [List.mem_cons, not_or]
          exact ⟨fun e => hc e.symm, h1⟩

/-! ### Lemmas about one `__next__` step -/

theorem loopRead_hang_of_empty_script (fuel : Nat) (b : List Char) (hb : DELIM ∉ b) :
    loopRead fuel b [] = LoopRes.hang := by
  induction fuel generalizing b with
  | zero => simp [loopRead, hb]
  | succ n ih =>
    simp only [loopRead, hb, if_neg, readRaw]
    rw [List.append_nil]
    exact ih b hb

theorem step1_of_nonempty (st : IterState) (h : st.buffer ≠ []) :
    step1 st = (some st.buffer, st.script) := by
  simp [step1, h]

theorem finishSplit_yield {b : List Char} {s : Script} {fb : IterState}
    {l : List Char} {st' : IterState}
    (h : finishSplit b s fb = (NextRes.yield l, st')) :
    splitFirst DELIM b = some (l, st'.buffer) ∧ st'.script = s := by
  unfold finishSplit at h
  cases hsp : splitFirst DELIM b with
  | none => rw [hsp] at h; simp at h
  | some p =>
    cases p with
    | mk line tail =>
      rw [hsp] at h
      have h1 : NextRes.yield line = NextRes.yield l := congrArg Prod.fst h
      have h2 : (⟨tail, s⟩ : IterState) = st' := congrArg Prod.snd h
      injection h1 with hl
      subst hl
      subst h2
      exact ⟨rfl, rfl⟩

theorem nextFuel_of_step1 (fuel : Nat) (st : IterState) (u v : List Char) (s1 : Script)
    (hstep : step1 st = (some (u ++ DELIM :: v), s1)) (hu : DELIM ∉ u) :
    nextFuel fuel st = (NextRes.yield u, ⟨v, s1⟩) := by
  have hmem : DELIM ∈ u ++ DELIM :: v := by simp
  unfold nextFuel
  split
  · next s1' heq =>
    rw [hstep] at heq
    simp at heq
  · next b s1' heq =>
    rw [hstep] at heq
    have hb : u ++ DELIM :: v = b := by
      have := congrArg Prod.fst heq
      simpa using this
    have hs : s1 = s1' := congrArg Prod.snd heq
    subst hb
    subst hs
    rw [if_pos hmem]
    unfold finishSplit
    rw [splitFirst_append DELIM u v hu]

theorem nextFuel_buffer_with_delim (fuel : Nat) (u v : List Char) (s : Script)
    (hu : DELIM ∉ u) :
    nextFuel fuel ⟨u ++ DELIM :: v, s⟩ = (NextRes.yield u, ⟨v, s⟩) := by
  refine nextFuel_of_step1 fuel _ u v s ?_ hu
  exact step1_of_nonempty _ (by simp)

theorem nextFuel_chunk_with_delim (fuel : Nat) (u v : List Char) (s : Script)
    (hu : DELIM ∉ u) :
    nextFuel fuel ⟨[], ReadEv.data (u ++ DELIM :: v) :: s⟩ = (NextRes.yield u, ⟨v, s⟩) := by
  refine nextFuel_of_step1 fuel _ u v s ?_ hu
  simp [step1, readRaw]

theorem loopRead_ok_chunks (fuel : Nat) (b : List Char) (s : Script)
    (b' : List Char) (s' : Script)
    (h : loopRead fuel b s = LoopRes.ok b' s') :
    DELIM ∈ b' ∧ ∃ cs : List (List Char),
      b' = b ++ cs.flatten ∧ s = cs.map ReadEv.data ++ s' := by
  induction fuel generalizing b s with
  | zero =>
    unfold loopRead at h
    by_cases hb : DELIM ∈ b
    · rw [if_pos hb] at h
      injection h with h1 h2
      subst h1; subst h2
      exact ⟨hb, [], by simp, by simp⟩
    · rw [if_neg hb] at h
      simp at h
  | succ n ih =>
    unfold loopRead at h
    by_cases hb : DELIM ∈ b
    · rw [if_pos hb] at h
      injection h with h1 h2
      subst h1; subst h2
      exact ⟨hb, [], by simp, by simp⟩
    · rw [if_neg hb] at h
      cases s with
      | nil =>
        simp only [readRaw] at h
        rw [List.append_nil] at h
        rw [loopRead_hang_of_empty_script n b hb] at h
        simp at h
      | cons ev rest =>
        cases ev with
        | data c =>
          simp only [readRaw] at h
          obtain ⟨hmem, cs', hflat, hscript⟩ := ih (b ++ c) rest h
          refine ⟨hmem, c :: cs', ?_, ?_⟩
          · simp [hflat]
          · simp [hscript]
        | err =>
          simp only [readRaw] at h
          simp at h

theorem nextFuel_hang_empty_rest (fuel : Nat) (st : IterState) (b : List Char)
    (s1 : Script) (more : List Char)
    (hstep : step1 st = (some b, s1)) (hb : DELIM ∉ b)
    (hread : readRaw s1 = (some more, [])) :
    nextFuel fuel st = (NextRes.hang, ⟨st.buffer ++ more, []⟩) := by
  unfold nextFuel
  split
  · next s1' heq => rw [hstep] at heq; simp at heq
  · next b' s1' heq =>
    rw [hstep] at heq
    have hb' : b = b' := by simpa using congrArg Prod.fst heq
    have hs' : s1 = s1' := congrArg Prod.snd heq
    subst hb'
    subst hs'
    rw [if_neg hb]
    split
    · next s2 hr => rw [hread] at hr; simp at hr
    · next more' s2 hr =>
      rw [hread] at hr
      have hm : more = more' := by simpa using congrArg Prod.fst hr
      have hs2 : ([] : Script) = s2 := congrArg Prod.snd hr
      subst hm
      subst hs2
      rw [loopRead_hang_of_empty_script fuel b hb]

/-! ### Lemmas about the registry -/

theorem getGlobal_erase_self (r : Registry) (tid : Nat) :
    getGlobal (r.filter (fun p => p.1 != tid)) tid = none := by
  induction r with
  | nil => rfl
  | cons a rest ih =>
    by_cases ha : a.1 = tid
    · simp [List.filter, ha, ih]
    · simp only [List.filter_cons]
      rw [if_pos (by simpa using ha)]
      simp only [getGlobal, List.find?]
      rw [show (a.1 == tid) = false by simpa using ha]
      exact ih

theorem getGlobal_erase_other (r : Registry) (tid j : Nat) (hj : j ≠ tid) :
    getGlobal (r.filter (fun p => p.1 != tid)) j = getGlobal r j := by
  induction r with
  | nil => rfl
  | cons a rest ih =>
    by_cases ha : a.1 = tid
    · have haj : (a.1 == j) = false := by
        simp [ha]
        exact fun e => hj e.symm
      simp only [List.filter_cons]
      rw [if_neg (by simpa using ha)]
      rw [ih]
      simp only [getGlobal, List.find?, haj]
    · simp only [List.filter_cons]
      rw [if_pos (by simpa using ha)]
      by_cases haj : a.1 = j
      · simp [getGlobal, List.find?, haj]
      · simp only [getGlobal, List.find?]
        rw [show (a.1 == j) = false by simpa using haj]
        exact ih

theorem getGlobal_setGlobal_self (r : Registry) (tid c : Nat) :
    getGlobal (setGlobal r tid c) tid = some c := by
  simp [getGlobal, setGlobal, List.find?]

theorem getGlobal_setGlobal_other (r : Registry) (tid c j : Nat) (hj : j ≠ tid) :
    getGlobal (setGlobal r tid c) j = getGlobal r j := by
  simp only [getGlobal, setGlobal, List.find?]
  rw [show (tid == j) = false by simpa using fun e => hj e.symm]
  exact getGlobal_erase_other r tid j hj

theorem getGlobal_applyOp_other (r : Registry) (tid j : Nat) (op : RegOp) (hj : j ≠ tid) :
    getGlobal (applyOp r tid op) j = getGlobal r j := by
  cases op with
  | set c => exact getGlobal_setGlobal_other r tid c j hj
  | unset =>
    simp only [applyOp, unsetGlobal]
    cases hg : getGlobal r tid with
    | none => rfl
    | some c => exact getGlobal_erase_other r tid j hj

theorem getGlobal_applyOps_other (r : Registry) (tid j : Nat) (ops : List RegOp) (hj : j ≠ tid) :
    getGlobal (applyOps r tid ops) j = getGlobal r j := by
  induction ops generalizing r with
  | nil => rfl
  | cons op rest ih =>
    simp only [applyOps, List.foldl_cons]
    rw [show List.foldl (fun acc op => applyOp acc tid op) (applyOp r tid op) rest
          = applyOps (applyOp r tid op) tid rest from rfl]
    rw [ih (applyOp r tid op)]
    exact getGlobal_applyOp_other r tid j op hj

set_option maxRecDepth 8192 in
/-- Cross-check: every character produced by the windows-1252 decode table
is accepted by `cp1252Encodable` — the encodable set contains the decode
image, so all wire-received text can be re-encoded. -/
theorem decode_image_encodable : ∀ b : Nat, b < 256 →
    (cp1252Decode b).all cp1252Encodable = true := by decide

/-! ### Lemmas about `strip`, `split` and `from_string` -/

theorem pyStrip_id (c0 : Char) (mid : List Char) (x : Char)
    (h0 : isPySpace c0 = false) (hx : isPySpace x = false) :
    pyStrip (c0 :: (mid ++ [x])) = c0 :: (mid ++ [x]) := by
  unfold pyStrip pyLStrip pyRStrip
  rw [List.dropWhile_cons_of_neg (by simp [h0])]
  rw [show (c0 :: (mid ++ [x])).reverse = x :: (mid.reverse ++ [c0]) by simp]
  rw [List.dropWhile_cons_of_neg (by simp [hx])]
  simp

theorem pySplitSp2_line (h c : List Char) (hsp : ' ' ∉ h) :
    pySplitSp2 ('1' :: ' ' :: (h ++ ' ' :: c)) = [['1'], h, c] := by
  unfold pySplitSp2
  rw [splitFirst_cons_ne ' ' '1' _ (by decide), splitFirst_cons_self]
  simp only [Option.map_some']
  rw [splitFirst_append ' ' h c hsp]

theorem from_string_parts (l p0 p1 p2 : List Char)
    (hs : pySplitSp2 (pyStrip l) = [p0, p1, p2]) :
    Packet.from_string l =
      match pyInt p0 with
      | none => ParseResult.error
      | some n =>
        match PacketType.ofInt n with
        | none => ParseResult.error
        | some t => ParseResult.ok ⟨t, p1, p2⟩ := by
  unfold Packet.from_string
  rw [hs]

theorem from_string_absent (l : List Char)
    (hlen : (pySplitSp2 (pyStrip l)).length < 3) :
    Packet.from_string l = ParseResult.absent := by
  unfold Packet.from_string
  rcases hp : pySplitSp2 (pyStrip l) with _ | ⟨a, _ | ⟨b, _ | ⟨c, rest⟩⟩⟩
  · rfl
  · rfl
  · rfl
  · rw [hp] at hlen
    cases rest with
    | nil => simp at hlen
    | cons d rest' => rfl

theorem pySplitSp2_length_le (s : List Char) : (pySplitSp2 s).length ≤ 3 := by
  unfold pySplitSp2
  rcases h0 : splitFirst ' ' s with _ | ⟨p0, r0⟩
  · simp
  · rcases h1 : splitFirst ' ' r0 with _ | ⟨p1, r1⟩ <;> simp [h1]

/-! ### The claims -/

/-- C1: the claim states chunk-boundary invariance — the line sequence
depends only on the concatenated bytes, and every extra `readChunk()` made
while buffering is appended to the working chunk with nothing dropped.  The
code violates this: the `if` block of `__next__` appends the extra chunk to
`self.__buffer` instead of the local working chunk, and `self.__buffer` is
then overwritten after the split.  The same byte stream `ab\rc\r` delivered
as one chunk yields `ab` first, but delivered as `a`, `b\r`, `c\r` the
first `next()` yields `ac` — the whole chunk `b\r` is dropped. -/
theorem c1_chunking_dependent :
    nextFuel 1 ⟨[], [ReadEv.data ['a'], ReadEv.data ['b', DELIM], ReadEv.data ['c', DELIM]]⟩
      = (NextRes.yield ['a', 'c'], ⟨[], []⟩) ∧
    nextFuel 1 ⟨[], [ReadEv.data ['a', 'b', DELIM, 'c', DELIM]]⟩
      = (NextRes.yield ['a', 'b'], ⟨['c', DELIM], []⟩) := by decide

/-- C2: the claim says a zero-byte read (end-of-stream) with no delimiter
available makes `next()` terminate with `StopIteration`.  The code instead
loops forever: the decoded empty string is not `None`, so `__check_none`
passes, and the `while` loop keeps appending empty reads.  Both with an
empty stream and with a pending undelimited fragment, `__next__` exhausts
every amount of fuel — it never terminates, with or without a pending
partial line. -/
theorem c2_eof_hang : ∀ fuel : Nat,
    nextFuel fuel ⟨[], []⟩ = (NextRes.hang, ⟨[], []⟩) ∧
    nextFuel fuel ⟨[], [ReadEv.data ['x', 'y', 'z']]⟩ = (NextRes.hang, ⟨[], []⟩) := by
  intro fuel
  constructor
  · have := nextFuel_hang_empty_rest fuel ⟨[], []⟩ [] [] []
      (by simp [step1, readRaw]) (by simp) (by simp [readRaw])
    simpa using this
  · have := nextFuel_hang_empty_rest fuel ⟨[], [ReadEv.data ['x', 'y', 'z']]⟩
      ['x', 'y', 'z'] [] []
      (by simp [step1, readRaw]) (by decide) (by simp [readRaw])
    simpa using this

/-- C3: the claim says a transport `OSError` during any read performed by
`next()` is reported as `StopIteration` and never propagates.  The code
guards only the first two reads with `__read_data`; the `while` loop at
line 50 calls `read()` directly, so an `OSError` on the third read
propagates out of `__next__` as `OSError`, not `StopIteration`. -/
theorem c3_oserror_propagates :
    nextFuel 1 ⟨[], [ReadEv.data ['a'], ReadEv.data ['b'], ReadEv.err]⟩
      = (NextRes.oserror, ⟨['b'], []⟩) := by decide

/-- C4: a single chunk with exactly two delimiters yields the text before
the first delimiter on the first `next()` call and the text between the two
delimiters on the immediately following call, with no transport read in
between — the second call starts from the nonempty buffer and the script is
left untouched. -/
theorem c4_two_delims (fuel : Nat) (a b d : List Char) (s : Script)
    (ha : DELIM ∉ a) (hb : DELIM ∉ b) (_hd : DELIM ∉ d) :
    nextFuel fuel ⟨[], ReadEv.data (a ++ DELIM :: (b ++ DELIM :: d)) :: s⟩
      = (NextRes.yield a, ⟨b ++ DELIM :: d, s⟩) ∧
    nextFuel fuel ⟨b ++ DELIM :: d, s⟩ = (NextRes.yield b, ⟨d, s⟩) :=
  ⟨nextFuel_chunk_with_delim fuel a (b ++ DELIM :: d) s ha,
   nextFuel_buffer_with_delim fuel b d s hb⟩

/-- C4 witness: the general theorem applied to the chunk `A\rB\rD`. -/
theorem c4_witness :
    (DELIM ∉ (['A'] : List Char)) ∧
    nextFuel 0 ⟨[], [ReadEv.data ['A', DELIM, 'B', DELIM, 'D']]⟩
      = (NextRes.yield ['A'], ⟨['B', DELIM, 'D'], []⟩) ∧
    nextFuel 0 ⟨['B', DELIM, 'D'], []⟩ = (NextRes.yield ['B'], ⟨['D'], []⟩) := by
  refine ⟨by decide, ?_, ?_⟩
  · exact (c4_two_delims 0 ['A'] ['B'] ['D'] [] (by decide) (by decide) (by decide)).1
  · exact (c4_two_delims 0 ['A'] ['B'] ['D'] [] (by decide) (by decide) (by decide)).2

/-- C5 counterexample: after the first extraction from the chunk `A\rB\r`,
the stored buffer is `B\r`, which still contains the delimiter — refuting
"the buffer never contains the delimiter once a full line has been
extracted". -/
theorem c5_counterexample :
    nextFuel 0 ⟨[], [ReadEv.data ['A', DELIM, 'B', DELIM]]⟩
      = (NextRes.yield ['A'], ⟨['B', DELIM], []⟩) ∧
    DELIM ∈ (['B', DELIM] : List Char) := by decide

/-- C5 amended: extraction removes exactly one delimiter occurrence and
everything before it.  Whenever `next()` yields a line, the working chunk
of that call — pinned down here as `b ++ cs.flatten`, where `step1` gives
the initial chunk `b` (the stored buffer if nonempty, else the first chunk
read from the script) and `cs` are exactly the chunks the `while` loop
read off the script — splits at its FIRST delimiter into the yielded line
and the new buffer: the line is delimiter-free and the chunk equals
line ++ DELIM ++ buffer, so the buffer is exactly the suffix after the
first delimiter and may itself still contain delimiters.  (In the loop
case the chunk `m` consumed by the `if` block is absent from the working
chunk — the C1 bug.) -/
theorem c5_amended (fuel : Nat) (st st' : IterState) (l : List Char)
    (h : nextFuel fuel st = (NextRes.yield l, st')) :
    DELIM ∉ l ∧
    ∃ b s1 cs,
      step1 st = (some b, s1) ∧
      b ++ cs.flatten = l ++ DELIM :: st'.buffer ∧
      splitFirst DELIM (b ++ cs.flatten) = some (l, st'.buffer) ∧
      ((DELIM ∈ b ∧ cs = [] ∧ st'.script = s1) ∨
       (DELIM ∉ b ∧ ∃ m s2, s1 = ReadEv.data m :: s2 ∧
         s2 = cs.map ReadEv.data ++ st'.script)) := by
  unfold nextFuel at h
  split at h
  · simp at h
  · next b s1 heq =>
    by_cases hmem : DELIM ∈ b
    · rw [if_pos hmem] at h
      obtain ⟨hsp, hscr⟩ := finishSplit_yield h
      obtain ⟨hnl, hw⟩ := splitFirst_some DELIM hsp
      refine ⟨hnl, b, s1, [], heq, ?_, ?_, Or.inl ⟨hmem, rfl, hscr⟩⟩
      · simpa using hw
      · simpa using hsp
    · rw [if_neg hmem] at h
      split at h
      · simp at h
      · next more s2 hread =>
        split at h
        · next b' s3 hloop =>
          obtain ⟨hsp, hscr⟩ := finishSplit_yield h
          obtain ⟨hmemb, cs, hflat, hscript⟩ := loopRead_ok_chunks fuel b s2 b' s3 hloop
          obtain ⟨hnl, hw⟩ := splitFirst_some DELIM hsp
          have hs1 : s1 = ReadEv.data more :: s2 := by
            cases s1 with
            | nil =>
              exfalso
              simp only [readRaw] at hread
              have hs : ([] : Script) = s2 := congrArg Prod.snd hread
              rw [← hs] at hloop
              rw [loopRead_hang_of_empty_script fuel b hmem] at hloop
              simp at hloop
            | cons ev rest =>
              cases ev with
              | data c =>
                simp only [readRaw] at hread
                have hm : c = more := by
                  simpa using congrArg (fun p => Option.getD p.1 []) hread
                have hs : rest = s2 := congrArg Prod.snd hread
                rw [hm, hs]
              | err =>
                simp only [readRaw] at hread
                simp at hread
          refine ⟨hnl, b, s1, cs, heq, ?_, ?_, Or.inr ⟨hmem, more, s2, hs1, ?_⟩⟩
          · rw [← hflat]; exact hw
          · rw [← hflat]; exact hsp
          · rw [hscript, hscr]
        · simp at h
        · simp at h

/-- C5 witness: the amended theorem applied to the extraction of `A` from
the buffered text `A\rB\r`: the working chunk is the buffer itself
(`cs = []`), it splits at the first delimiter into line `A` and buffer
`B\r`, and the script is untouched. -/
theorem c5_witness :
    DELIM ∉ (['A'] : List Char) ∧
    ∃ b s1 cs,
      step1 ⟨['A', DELIM, 'B', DELIM], []⟩ = (some b, s1) ∧
      b ++ cs.flatten = ['A'] ++ DELIM :: ['B', DELIM] ∧
      splitFirst DELIM (b ++ cs.flatten) = some (['A'], ['B', DELIM]) ∧
      ((DELIM ∈ b ∧ cs = [] ∧ ([] : Script) = s1) ∨
       (DELIM ∉ b ∧ ∃ m s2, s1 = ReadEv.data m :: s2 ∧
         s2 = cs.map ReadEv.data ++ ([] : Script))) :=
  c5_amended 0 ⟨['A', DELIM, 'B', DELIM], []⟩ ⟨['B', DELIM], []⟩ ['A'] (by decide)

/-- C6 counterexample: the claim says parse splits the line on whitespace.
On the line `0<TAB>a b` a whitespace split gives three parts and (per the
claim) an INBOUND record with header `a`, but the code splits on the single
space character only, obtains two parts, and returns absent. -/
theorem c6_counterexample :
    Packet.from_string ['0', '\t', 'a', ' ', 'b'] = ParseResult.absent ∧
    specParseWs ['0', '\t', 'a', ' ', 'b']
      = ParseResult.ok ⟨PacketType.RECEIVE, ['a'], ['b']⟩ := by decide

/-- C6 amended: parse splits the stripped line on the single ASCII space
character (not general whitespace; runs of spaces produce empty parts) into
at most 3 parts: fewer than 3 parts is absent; 3 parts whose first part is
not an integer string with value 0 or 1 is a decode error; otherwise the
record holds part 1 as header and part 2 as content verbatim.  The three
concrete examples of the claim hold as stated.  The general clause carries
a windows-1252-representability hypothesis on the line: every line the
program parses comes out of `recv(...).decode(ENCODING)`, so this is the
claim's whole domain, and on it `pyInt` agrees with CPython `int()`
exactly (outside it `int()` would additionally accept non-ASCII Unicode
decimal digits). -/
theorem c6_amended :
    (∀ l : List Char, (pySplitSp2 (pyStrip l)).length ≤ 3) ∧
    (∀ l : List Char, (pySplitSp2 (pyStrip l)).length < 3 →
      Packet.from_string l = ParseResult.absent) ∧
    (∀ l p0 p1 p2 : List Char, (∀ ch ∈ l, cp1252Encodable ch = true) →
      pySplitSp2 (pyStrip l) = [p0, p1, p2] →
      (pyInt p0 = none → Packet.from_string l = ParseResult.error) ∧
      (∀ n : Int, pyInt p0 = some n → n ≠ 0 → n ≠ 1 →
        Packet.from_string l = ParseResult.error) ∧
      (pyInt p0 = some 0 →
        Packet.from_string l = ParseResult.ok ⟨PacketType.RECEIVE, p1, p2⟩) ∧
      (pyInt p0 = some 1 →
        Packet.from_string l = ParseResult.ok ⟨PacketType.SEND, p1, p2⟩)) ∧
    Packet.from_string "1 cond".toList = ParseResult.absent ∧
    Packet.from_string "0 mv hello world".toList
      = ParseResult.ok ⟨PacketType.RECEIVE, "mv".toList, "hello world".toList⟩ ∧
    Packet.from_string "9 x y".toList = ParseResult.error := by
  refine ⟨fun l => pySplitSp2_length_le (pyStrip l), from_string_absent, ?_,
    by decide, by decide, by decide⟩
  intro l p0 p1 p2 _hl hs
  refine ⟨?_, ?_, ?_, ?_⟩
  · intro hn; rw [from_string_parts l p0 p1 p2 hs, hn]
  · intro n hn h0 h1
    rw [from_string_parts l p0 p1 p2 hs, hn]
    simp [PacketType.ofInt, h0, h1]
  · intro hn; rw [from_string_parts l p0 p1 p2 hs, hn]; rfl
  · intro hn; rw [from_string_parts l p0 p1 p2 hs, hn]; rfl

/-- C6 witness: the amended general clause applied to a line whose content
part keeps its internal space verbatim. -/
theorem c6_witness :
    Packet.from_string "0 a a b".toList
      = ParseResult.ok ⟨PacketType.RECEIVE, ['a'], ['a', ' ', 'b']⟩ := by
  have h := c6_amended.2.2.1 "0 a a b".toList ['0'] ['a'] ['a', ' ', 'b']
    (by decide) (by decide)
  exact h.2.2.1 (by decide)

/-- C7 counterexample: for the spaceless payload `ping`, `send` writes
`1 ping\r` and the peer reader yields `1 ping`, but parsing that line gives
absent (only two space-separated parts), not an OUTBOUND record as the
claim asserts for every payload. -/
theorem c7_counterexample :
    send "ping".toList = some "1 ping\r".toList ∧
    nextFuel 0 ⟨[], [ReadEv.data "1 ping\r".toList]⟩
      = (NextRes.yield "1 ping".toList, ⟨[], []⟩) ∧
    Packet.from_string "1 ping".toList = ParseResult.absent := by decide

/-- C7 amended: the round trip holds for payloads made of a space-free
header, a space, and a content part ending in a non-whitespace character,
every character windows-1252 encodable and none equal to the delimiter:
`send` writes exactly `1 ` + payload + `\r` (its encode succeeds), one
reader call on that transport yields `1 ` + payload, and parsing the
yielded line gives an OUTBOUND (SEND) record whose header is the part of
the payload before its first space and whose content is the rest. -/
theorem c7_amended (fuel : Nat) (h c : List Char) (x : Char)
    (hsp : ' ' ∉ h) (hhr : DELIM ∉ h) (hcr : DELIM ∉ c) (hxr : x ≠ DELIM)
    (hxs : isPySpace x = false)
    (hhe : ∀ ch ∈ h, cp1252Encodable ch = true)
    (hce : ∀ ch ∈ c, cp1252Encodable ch = true)
    (hxe : cp1252Encodable x = true) :
    send (h ++ ' ' :: (c ++ [x]))
      = some ('1' :: ' ' :: ((h ++ ' ' :: (c ++ [x])) ++ [DELIM])) ∧
    nextFuel fuel ⟨[], [ReadEv.data ('1' :: ' ' :: ((h ++ ' ' :: (c ++ [x])) ++ [DELIM]))]⟩
      = (NextRes.yield ('1' :: ' ' :: (h ++ ' ' :: (c ++ [x]))), ⟨[], []⟩) ∧
    Packet.from_string ('1' :: ' ' :: (h ++ ' ' :: (c ++ [x])))
      = ParseResult.ok ⟨PacketType.SEND, h, c ++ [x]⟩ := by
  have hpre : DELIM ∉ ('1' :: ' ' :: (h ++ ' ' :: (c ++ [x]))) := by
    intro hmem
    simp only [List.mem_cons, List.mem_append, List.mem_singleton] at hmem
    rcases hmem with e | e | e | e | e | e | e
    · exact absurd e (by decide)
    · exact absurd e (by decide)
    · exact hhr e
    · exact absurd e (by decide)
    · exact hcr e
    · exact hxr e.symm
    · simp at e
  refine ⟨?_, ?_, ?_⟩
  · have hall : (h ++ ' ' :: (c ++ [x])).all cp1252Encodable = true := by
      rw [List.all_eq_true]
      intro ch hch
      simp only [List.mem_append, List.mem_cons, List.mem_singleton] at hch
      rcases hch with e | e | e | e | e
      · exact hhe ch e
      · rw [e]; decide
      · exact hce ch e
      · rw [e]; exact hxe
      · simp at e
    simp [send, hall]
  · rw [show ('1' :: ' ' :: ((h ++ ' ' :: (c ++ [x])) ++ [DELIM]))
        = ('1' :: ' ' :: (h ++ ' ' :: (c ++ [x]))) ++ DELIM :: [] from by simp]
    exact nextFuel_chunk_with_delim fuel _ [] [] hpre
  · have hline : ('1' :: ' ' :: (h ++ ' ' :: (c ++ [x])))
        = '1' :: ((' ' :: (h ++ ' ' :: c)) ++ [x]) := by simp
    have hstrip : pyStrip ('1' :: ' ' :: (h ++ ' ' :: (c ++ [x])))
        = '1' :: ' ' :: (h ++ ' ' :: (c ++ [x])) := by
      rw [hline]
      exact pyStrip_id '1' (' ' :: (h ++ ' ' :: c)) x (by decide) hxs
    have hsplit2 : pySplitSp2 (pyStrip ('1' :: ' ' :: (h ++ ' ' :: (c ++ [x]))))
        = [['1'], h, c ++ [x]] := by
      rw [hstrip]
      exact pySplitSp2_line h (c ++ [x]) hsp
    rw [from_string_parts _ ['1'] h (c ++ [x]) hsplit2]
    rw [show pyInt ['1'] = some 1 from by decide]
    rfl

/-- C7 witness: the amended round trip applied to the payload `say hello`. -/
theorem c7_witness :
    Packet.from_string ('1' :: ' ' :: ("say".toList ++ ' ' :: ("hell".toList ++ ['o'])))
      = ParseResult.ok ⟨PacketType.SEND, "say".toList, "hell".toList ++ ['o']⟩ :=
  (c7_amended 0 "say".toList "hell".toList 'o' (by decide) (by decide) (by decide)
    (by decide) (by decide) (by decide) (by decide) (by decide)).2.2

set_option maxRecDepth 4096 in
/-- C8 counterexample: the claim says every byte 0-255 decodes to a
character.  The windows-1252 code page used by the code leaves the five
bytes 0x81, 0x8D, 0x8F, 0x90 and 0x9D unmapped, so a strict decode of any
chunk containing one of them fails. -/
theorem c8_counterexample :
    cp1252Decode 129 = none ∧ cp1252Decode 141 = none ∧ cp1252Decode 143 = none ∧
    cp1252Decode 144 = none ∧ cp1252Decode 157 = none ∧
    decodeBytes [72, 129] = none := by decide

set_option maxRecDepth 8192 in
/-- C8 amended: the decoding applied to received bytes is total over all
byte values EXCEPT the five bytes 0x81, 0x8D, 0x8F, 0x90 and 0x9D, which
windows-1252 leaves unmapped; every other byte value 0-255 maps to a
character. -/
theorem c8_amended : ∀ b : Nat, b < 256 →
    (b ≠ 129 ∧ b ≠ 141 ∧ b ≠ 143 ∧ b ≠ 144 ∧ b ≠ 157) →
    (cp1252Decode b).isSome = true := by decide

/-- C8 witness: the amended totality applied at byte 0x80. -/
theorem c8_witness : (cp1252Decode 128).isSome = true :=
  c8_amended 128 (by decide) (by decide)

/-- C9: registry semantics — overwriting `setCurrent` twice leaves the last
connection (last-write-wins), a successful `unsetCurrent` makes
`getCurrent` absent, and no sequence of operations performed under one
identity changes what `getCurrent` returns for a different identity. -/
theorem c9_registry (r : Registry) (tid c1 c2 j : Nat) (hj : j ≠ tid)
    (ops : List RegOp) (r' : Registry) (hr : unsetGlobal r tid = some r') :
    getGlobal (setGlobal (setGlobal r tid c1) tid c2) tid = some c2 ∧
    getGlobal r' tid = none ∧
    getGlobal (applyOps r tid ops) j = getGlobal r j := by
  refine ⟨getGlobal_setGlobal_self _ tid c2, ?_, getGlobal_applyOps_other r tid j ops hj⟩
  unfold unsetGlobal at hr
  cases hg : getGlobal r tid with
  | none => rw [hg] at hr; simp at hr
  | some cc =>
    rw [hg] at hr
    have : r.filter (fun p => p.1 != tid) = r' := by simpa using hr
    rw [← this]
    exact getGlobal_erase_self r tid

/-- C9 witness: the registry theorem applied to a concrete registry, thread
identity 0, the sequence set-then-unset, and observer identity 1. -/
theorem c9_witness :
    getGlobal (setGlobal (setGlobal [(0, 7)] 0 1) 0 2) 0 = some 2 ∧
    getGlobal ([] : Registry) 0 = none ∧
    getGlobal (applyOps [(0, 7)] 0 [RegOp.set 5, RegOp.unset]) 1 = getGlobal [(0, 7)] 1 :=
  c9_registry [(0, 7)] 0 1 2 1 (by decide) [RegOp.set 5, RegOp.unset] [] (by decide)

/-- C10: the direction token is recognised by its integer value, not its
spelling — any stripped line (over windows-1252-representable characters,
the domain of every line the program reads) splitting into exactly three
space-separated parts whose first part is an integer string of value 1
parses to an OUTBOUND (SEND) record, value 0 to an INBOUND (RECEIVE)
record; in particular the strings `01`, `+1`, `0_1` and `00` carry the
values 1, 1, 1 and 0. -/
theorem c10_direction_by_value (l p0 p1 p2 : List Char)
    (_hl : ∀ ch ∈ l, cp1252Encodable ch = true)
    (hs : pySplitSp2 (pyStrip l) = [p0, p1, p2]) :
    (pyInt p0 = some 1 →
      Packet.from_string l = ParseResult.ok ⟨PacketType.SEND, p1, p2⟩) ∧
    (pyInt p0 = some 0 →
      Packet.from_string l = ParseResult.ok ⟨PacketType.RECEIVE, p1, p2⟩) ∧
    pyInt ['0', '1'] = some 1 ∧ pyInt ['+', '1'] = some 1 ∧
    pyInt ['0', '_', '1'] = some 1 ∧ pyInt ['0', '0'] = some 0 := by
  refine ⟨?_, ?_, by decide, by decide, by decide, by decide⟩
  · intro hn; rw [from_string_parts l p0 p1 p2 hs, hn]; rfl
  · intro hn; rw [from_string_parts l p0 p1 p2 hs, hn]; rfl

/-- C10 witness: the lines `01 x y`, `+1 x y` and `0_1 x y` all parse as
OUTBOUND. -/
theorem c10_witness :
    Packet.from_string "01 x y".toList
      = ParseResult.ok ⟨PacketType.SEND, ['x'], ['y']⟩ ∧
    Packet.from_string "+1 x y".toList
      = ParseResult.ok ⟨PacketType.SEND, ['x'], ['y']⟩ ∧
    Packet.from_string "0_1 x y".toList
      = ParseResult.ok ⟨PacketType.SEND, ['x'], ['y']⟩ := by
  refine ⟨?_, ?_, ?_⟩
  · exact (c10_direction_by_value "01 x y".toList ['0', '1'] ['x'] ['y']
      (by decide) (by decide)).1 (by decide)
  · exact (c10_direction_by_value "+1 x y".toList ['+', '1'] ['x'] ['y']
      (by decide) (by decide)).1 (by decide)
  · exact (c10_direction_by_value "0_1 x y".toList ['0', '_', '1'] ['x'] ['y']
      (by decide) (by decide)).1 (by decide)

end PacketLoggerApi
